import Mathlib

/-!
Verification of the telegram-secretary message pipeline.

The Python sources are embedded shallowly:
* Python `str` values are modelled as `List Char`; `None`-able strings as
  `Option (List Char)`.  Lowercasing and the word-character class of the
  regex `\w` are modelled over ASCII (`Char.toLower`, alphanumerics plus
  underscore), which covers every input the claims and counterexamples use.
* Timestamps are integers; `timedelta(hours=h)` is modelled as subtracting
  `h` time units.
* The SQL table of `Message` rows is a `List Msg`; the selector's
  `ORDER BY priority_score DESC, timestamp DESC` is modelled with
  `List.insertionSort` over that ordering, and `UPDATE ... WHERE id IN ids`
  as a map over the list.
* Side-effectful operations (sending a Telegram message, delivery of a
  digest) are modelled by boolean parameters saying whether the side effect
  is available/succeeds, and the functions return explicit outcome values.
-/

namespace TgSecretary

/-! ### Character and string helpers (ASCII model of Python str operations) -/

/-- ASCII model of the regex class `\w`: alphanumeric or underscore. -/
def isWordChar (c : Char) : Bool :=
  c.isAlphanum || c = '_'

/-- `startsWithSeq l pat` : does `l` start with `pat`?  Models Python
`str.startswith`. -/
def startsWithSeq : List Char → List Char → Bool
  | _, [] => true
  | [], _ :: _ => false
  | a :: as, b :: bs => a = b && startsWithSeq as bs

/-- `containsSeq l pat` : does `pat` occur contiguously in `l`?  Models the
Python substring test `pat in l`. -/
def containsSeq : List Char → List Char → Bool
  | [], pat => pat.isEmpty
  | a :: rest, pat => startsWithSeq (a :: rest) pat || containsSeq rest pat

/-- ASCII model of Python `str.lower`. -/
def lowerStr (l : List Char) : List Char :=
  l.map Char.toLower

/-- Model of Python `str.strip`: drop leading and trailing whitespace. -/
def stripStr (l : List Char) : List Char :=
  ((l.dropWhile Char.isWhitespace).reverse.dropWhile Char.isWhitespace).reverse

/-- Is the first character of the list a word character? -/
def headWordChar : List Char → Bool
  | [] => false
  | c :: _ => isWordChar c

/-- Does the text contain a token matching the regex `@\w+`, i.e. an `@`
immediately followed by at least one word character?  Models
`re.search(r"@\w+", text)` in `utils.detect_mention`. -/
def hasMentionToken : List Char → Bool
  | [] => false
  | a :: rest => (a = '@' && headWordChar rest) || hasMentionToken rest

/-! ### utils.py : scoring and feature extraction -/

/-- `utils.SCORE_MENTION`. -/
def SCORE_MENTION : Nat := 3

/-- `utils.SCORE_QUESTION`. -/
def SCORE_QUESTION : Nat := 2

/-- `utils.SCORE_LONG_MESSAGE`. -/
def SCORE_LONG_MESSAGE : Nat := 1

/-- `utils.SCORE_HIGH_PRIORITY_USER`. -/
def SCORE_HIGH_PRIORITY_USER : Nat := 2

/-- `utils.MIN_LONG_MESSAGE_LENGTH`. -/
def MIN_LONG_MESSAGE_LENGTH : Nat := 100

/-- Embedding of `utils.calculate_priority_score`.  The Python guard
`if message_text and len(message_text) > MIN_LONG_MESSAGE_LENGTH` treats
`None` and the empty string as falsy; an empty string has length `0`, so the
guard is equivalent to the `some` case length test below. -/
def calculate_priority_score (message_text : Option (List Char))
    (has_mention is_question is_high_priority_user : Bool) : Nat :=
  let score := 0
  let score := if has_mention then score + SCORE_MENTION else score
  let score := if is_question then score + SCORE_QUESTION else score
  let score :=
    match message_text with
    | some t => if MIN_LONG_MESSAGE_LENGTH < t.length then score + SCORE_LONG_MESSAGE else score
    | none => score
  let score := if is_high_priority_user then score + SCORE_HIGH_PRIORITY_USER else score
  score

/-- Embedding of `utils.detect_mention`.  Note the Python source lowercases
the text (`text.lower()`) but compares against `f"@{username}"` with the
username in its original case. -/
def detect_mention (text : Option (List Char)) (username : Option (List Char)) : Bool :=
  match text with
  | none => false
  | some t =>
    if t.isEmpty then false
    else
      match username with
      | some u =>
        if u.isEmpty then hasMentionToken t
        else containsSeq (lowerStr t) ('@' :: u) || hasMentionToken t
      | none => hasMentionToken t

/-- The fixed bilingual list `question_starters` from `utils.detect_question`. -/
def questionStarters : List (List Char) :=
  ["what".toList, "when".toList, "where".toList, "why".toList, "how".toList,
   "who".toList, "which".toList,
   "is ".toList, "are ".toList, "do ".toList, "does ".toList, "can ".toList,
   "could ".toList, "would ".toList, "will ".toList,
   "should ".toList, "have ".toList, "has ".toList, "did ".toList,
   "que ".toList, "qual ".toList, "quem ".toList, "quando ".toList,
   "onde ".toList, "como ".toList, "por que".toList,
   "você ".toList, "vocês ".toList]

/-- Embedding of `utils.detect_question`: absent/empty text is false;
otherwise the stripped text ends with a question mark, or its lowercased
form starts with one of the fixed question starters. -/
def detect_question (text : Option (List Char)) : Bool :=
  match text with
  | none => false
  | some t0 =>
    if t0.isEmpty then false
    else
      let t := stripStr t0
      if t.getLast? = some '?' then true
      else questionStarters.any (fun s => startsWithSeq (lowerStr t) s)

/-! ### Data model

`models.py` (the SQLAlchemy table declarations) is not among the available
sources; only its importers are.  The record shape below is therefore
modelled from the spec: §3 lists the Message attributes (identities, chat
metadata, text, capture timestamp, derived flags, priority score, alert-sent
flag and timestamp, digest-claimed flag and timestamp, label and labeled-at
timestamp), and §4.4 states that a new row is persisted "with all fields set
and all orthogonal flags false".  The field names follow the column names
used by the callers in `scheduler.py`, `bot.py` and `userbot.py`. -/

/-- The three admissible label values (`high`/`medium`/`low`). -/
inductive LabelValue
  | high
  | medium
  | low
deriving DecidableEq, Repr

/-- Modelled from the spec: one row of the Message table of `models.py`
(missing from the sources), per §3 of the spec and the columns referenced by
`scheduler.py`, `bot.py` and `userbot.py`.  `included_in_summary` is the
digest-claimed flag and `warning_sent` the alert-sent flag. -/
structure Msg where
  id : Nat
  telegram_message_id : Nat
  chat_id : Int
  chat_title : Option (List Char)
  chat_type : List Char
  user_id : Nat
  user_name : Option (List Char)
  message_text : Option (List Char)
  timestamp : Int
  has_mention : Bool
  is_question : Bool
  message_length : Nat
  priority_score : Nat
  topic_summary : Option (List Char)
  label : Option LabelValue
  labeled_at : Option Int
  included_in_summary : Bool
  summary_sent_at : Option Int
  warning_sent : Bool
  warning_sent_at : Option Int
deriving DecidableEq, Repr

/-- A default record used to build concrete test rows. -/
def baseMsg : Msg :=
  { id := 0, telegram_message_id := 0, chat_id := 0, chat_title := none,
    chat_type := "private".toList, user_id := 0, user_name := none,
    message_text := none, timestamp := 0, has_mention := false,
    is_question := false, message_length := 0, priority_score := 0,
    topic_summary := none, label := none, labeled_at := none,
    included_in_summary := false, summary_sent_at := none,
    warning_sent := false, warning_sent_at := none }

/-! ### bot.py : the label callback -/

/-- The user-visible outcome of `bot.handle_label_callback`: either the
"Message not found in database" reply, or the confirmation naming the label
that was just applied. -/
inductive LabelReply
  | notFound
  | confirmed (label : LabelValue)
deriving DecidableEq, Repr

/-- Embedding of the database transaction of `bot.handle_label_callback`
(after the callback payload has been parsed and the label validated to be
one of high/medium/low): look the message up by id; if absent reply
not-found; otherwise set `label` and `labeled_at` on the row with that id —
unconditionally, with no check of any existing label — and confirm the new
label. -/
def handle_label_callback (db : List Msg) (message_id : Nat)
    (label : LabelValue) (now : Int) : List Msg × LabelReply :=
  match db.find? (fun m => m.id = message_id) with
  | none => (db, .notFound)
  | some _ =>
      (db.map (fun m =>
        if m.id = message_id then { m with label := some label, labeled_at := some now }
        else m),
       .confirmed label)

/-! ### scheduler.py : batch selection, stats, summary generation -/

/-- The Boolean form of the selector's `ORDER BY priority_score DESC,
timestamp DESC`: `a` may come before `b`. -/
def selOrder (a b : Msg) : Bool :=
  decide (b.priority_score < a.priority_score) ||
    (decide (a.priority_score = b.priority_score) && decide (b.timestamp ≤ a.timestamp))

/-- `selOrder` as a relation, for use with `List.insertionSort`. -/
def selRel (a b : Msg) : Prop :=
  selOrder a b = true

instance : DecidableRel selRel :=
  fun a b => Bool.decEq (selOrder a b) true

instance : IsTotal Msg selRel where
  total a b := by
    unfold selRel selOrder
    rcases Nat.lt_trichotomy a.priority_score b.priority_score with h | h | h
    · right; simp [h]
    · rcases Int.le_total b.timestamp a.timestamp with ht | ht
      · left; simp [h, ht]
      · right; simp [h, ht]
    · left; simp [h]

instance : IsTrans Msg selRel where
  trans a b c hab hbc := by
    unfold selRel selOrder at hab hbc ⊢
    simp only [Bool.or_eq_true, Bool.and_eq_true, decide_eq_true_eq] at hab hbc ⊢
    omega

/-- The WHERE clause of the selection query in
`scheduler.get_unlabeled_messages`: captured at or after the cutoff,
unlabeled, not yet claimed for a digest, and scoring at least the configured
minimum. -/
def selectPred (minScore : Nat) (cutoff : Int) (m : Msg) : Bool :=
  decide (cutoff ≤ m.timestamp) && m.label.isNone && !m.included_in_summary &&
    decide (minScore ≤ m.priority_score)

/-- Embedding of `scheduler.get_unlabeled_messages`.  `hours` is the
lookback window, `limitN` the row cap (`config.max_messages_per_summary`),
`minScore` the configured minimum (`config.min_priority_score`), and
`claimTime` the `datetime.utcnow()` of the claim update.  Returns the
selected rows and the updated table: the selected rows — and only rows whose
id occurs among theirs — are marked `included_in_summary` with
`summary_sent_at` set; when nothing is selected the table is untouched
(the `if messages:` guard in the source). -/
def get_unlabeled_messages (db : List Msg) (now : Int)
    (hours limitN minScore : Nat) (claimTime : Int) : List Msg × List Msg :=
  let cutoff : Int := now - hours
  let selected := (List.insertionSort selRel (db.filter (selectPred minScore cutoff))).take limitN
  if selected.isEmpty then (selected, db)
  else
    (selected,
     db.map (fun m =>
       if (selected.map (fun s => s.id)).contains m.id
       then { m with included_in_summary := true, summary_sent_at := some claimTime }
       else m))

/-- Embedding of `scheduler.get_message_stats`: raw count of messages in the
lookback window and the number of distinct chats among them (neither
filtered by label or claim state). -/
def get_message_stats (db : List Msg) (now : Int) (hours : Nat) : Nat × Nat :=
  let cutoff : Int := now - hours
  let recent := db.filter (fun m => decide (cutoff ≤ m.timestamp))
  (recent.length, ((recent.map (fun m => m.chat_id)).dedup).length)

/-- What `scheduler.generate_and_send_summary` hands to delivery: the
"quiet" message when nothing arrived, the "all clear" message carrying the
raw total when nothing qualified, the digest itself, or — when
`bot.send_summary` raises — the caught-and-reported delivery error. -/
inductive SummaryOutcome
  | quiet (hours : Nat)
  | allClear (total : Nat) (hours : Nat)
  | digestSent (msgs : List Msg) (total uniqueChats : Nat)
  | deliveryError (msgs : List Msg)
deriving DecidableEq, Repr

/-- Embedding of `scheduler.generate_and_send_summary`.  `deliveryOk` says
whether the `bot.send_summary` side effect succeeds; when it raises, the
source catches the exception, logs it and best-effort reports it — the
claims made by `get_unlabeled_messages` are not rolled back and no exception
escapes, which the embedding renders by returning the `deliveryError`
outcome with the claimed table. -/
def generate_and_send_summary (db : List Msg) (now : Int)
    (hours limitN minScore : Nat) (deliveryOk : Bool) : SummaryOutcome × List Msg :=
  let stats := get_message_stats db now hours
  if stats.1 = 0 then (.quiet hours, db)
  else
    let r := get_unlabeled_messages db now hours limitN minScore now
    if r.1.isEmpty then (.allClear stats.1 hours, r.2)
    else if deliveryOk then (.digestSent r.1 stats.1 stats.2, r.2)
    else (.deliveryError r.1, r.2)

/-! ### userbot.py : intake and real-time warnings -/

/-- Result of an intake/warning step: the updated table, whether the
alert-dispatch side effect (`bot.send_message` inside
`send_warning_for_message`) was invoked, and whether the alert-sent flag was
written. -/
structure WarnEffect where
  db : List Msg
  dispatched : Bool
  flagSet : Bool
deriving DecidableEq, Repr

/-- The database update at the end of `userbot.send_warning_for_message`:
set `warning_sent` and `warning_sent_at` on the row with the given id. -/
def markWarning (db : List Msg) (message_id : Nat) (t : Int) : List Msg :=
  db.map (fun m =>
    if m.id = message_id then { m with warning_sent := true, warning_sent_at := some t }
    else m)

/-- Embedding of `userbot.send_warning_for_message`.  If the bot application
is unavailable the function returns without dispatching.  Otherwise
`bot.send_message` is invoked; only when it succeeds does the source reach
the update that sets the alert-sent flag — a raised exception is caught and
logged, leaving the flag unset. -/
def send_warning_for_message (db : List Msg) (message_id : Nat)
    (botAvailable dispatchOk : Bool) (now : Int) : WarnEffect :=
  if !botAvailable then ⟨db, false, false⟩
  else if dispatchOk then ⟨markWarning db message_id now, true, true⟩
  else ⟨db, true, false⟩

/-- Modelled from the spec: the primary-key id assigned by the storage layer
on insert (§3: "identity (opaque ordinal, assigned on creation)"; the
SQLAlchemy model is not in the sources).  One more than the largest id in
the table, so fresh ids never collide with existing rows. -/
def nextId (db : List Msg) : Nat :=
  (db.map (fun m => m.id)).foldr max 0 + 1

/-- Embedding of `userbot.save_message`: derive the feature flags and the
priority score, insert the new row (all lifecycle flags false, per §4.4 of
the spec, the model file being absent), and, when the score reaches
`config.warning_threshold_score`, invoke `send_warning_for_message`.
`topic_summary` stands for the best-effort result of the external
summarizer (`generate_topic_summary`), `highPriorityUsers` for the cached
registry snapshot. -/
def save_message (db : List Msg) (telegram_message_id : Nat) (chat_id : Int)
    (chat_title : Option (List Char)) (chat_type : List Char) (user_id : Nat)
    (user_name : Option (List Char)) (message_text : Option (List Char))
    (timestamp : Int) (client_username : Option (List Char))
    (highPriorityUsers : List Nat) (warning_threshold_score : Nat)
    (botAvailable dispatchOk : Bool) (topic_summary : Option (List Char))
    (now : Int) : WarnEffect :=
  let has_mention := detect_mention message_text client_username
  let is_question := detect_question message_text
  let message_length := match message_text with | some t => t.length | none => 0
  let is_high_priority := highPriorityUsers.contains user_id
  let priority_score :=
    calculate_priority_score message_text has_mention is_question is_high_priority
  let mid := nextId db
  let row : Msg :=
    { id := mid, telegram_message_id := telegram_message_id, chat_id := chat_id,
      chat_title := chat_title, chat_type := chat_type, user_id := user_id,
      user_name := user_name, message_text := message_text, timestamp := timestamp,
      has_mention := has_mention, is_question := is_question,
      message_length := message_length, priority_score := priority_score,
      topic_summary := topic_summary, label := none, labeled_at := none,
      included_in_summary := false, summary_sent_at := none,
      warning_sent := false, warning_sent_at := none }
  let db1 := db ++ [row]
  if warning_threshold_score ≤ priority_score then
    send_warning_for_message db1 mid botAvailable dispatchOk now
  else ⟨db1, false, false⟩

/-! ### The ledger operations, as a single step type -/

/-- Every operation of the repository that touches the Message table:
message intake (`userbot.save_message`, warning dispatch included), the
label callback (`bot.handle_label_callback`), a standalone warning update
(`userbot.send_warning_for_message`), and a summary cycle
(`scheduler.generate_and_send_summary`, claim update included). -/
inductive Op
  | intake (telegram_message_id : Nat) (chat_id : Int)
      (chat_title : Option (List Char)) (chat_type : List Char) (user_id : Nat)
      (user_name : Option (List Char)) (message_text : Option (List Char))
      (timestamp : Int) (client_username : Option (List Char))
      (highPriorityUsers : List Nat) (warning_threshold_score : Nat)
      (botAvailable dispatchOk : Bool) (topic_summary : Option (List Char))
      (now : Int)
  | labelCallback (message_id : Nat) (label : LabelValue) (now : Int)
  | warn (message_id : Nat) (botAvailable dispatchOk : Bool) (now : Int)
  | summary (now : Int) (hours limitN minScore : Nat) (deliveryOk : Bool)

/-- Effect of one operation on the Message table. -/
def applyOp (db : List Msg) : Op → List Msg
  | .intake a b c d e f g h i j k l m n o =>
      (save_message db a b c d e f g h i j k l m n o).db
  | .labelCallback mid lab t => (handle_label_callback db mid lab t).1
  | .warn mid ba ok t => (send_warning_for_message db mid ba ok t).db
  | .summary now h n ms ok => (generate_and_send_summary db now h n ms ok).2

/-- Effect of a sequence of operations on the Message table. -/
def applyOps (db : List Msg) (ops : List Op) : List Msg :=
  ops.foldl applyOp db

/-- The digest-claim invariant tracked for claim permanence: some row with
this id is claimed, and every row with this id is claimed. -/
def claimedInv (db : List Msg) (mid : Nat) : Prop :=
  (∃ m ∈ db, m.id = mid ∧ m.included_in_summary = true) ∧
    ∀ m ∈ db, m.id = mid → m.included_in_summary = true

/-! ### Spec renderings for the mention-detection refinement claim -/

/-- Modelled from the spec (§4.2), for comparison with `detect_mention`:
true when the text contains an `@`-plus-word-characters token, or — when a
username is supplied — when the text contains the literal `@username` under
a fully case-insensitive comparison (both sides lowercased). -/
def detect_mention_spec (text : Option (List Char)) (username : Option (List Char)) : Bool :=
  match text with
  | none => false
  | some t =>
    if t.isEmpty then false
    else
      hasMentionToken t ||
        (match username with
         | some u => !u.isEmpty && containsSeq (lowerStr t) (lowerStr ('@' :: u))
         | none => false)

/-- The amended rendering of the mention contract, changed only where the
code refutes the spec: the username comparison lowercases the text but takes
the supplied username literally (in its original case). -/
def detect_mention_amended (text : Option (List Char)) (username : Option (List Char)) : Bool :=
  match text with
  | none => false
  | some t =>
    if t.isEmpty then false
    else
      hasMentionToken t ||
        (match username with
         | some u => !u.isEmpty && containsSeq (lowerStr t) ('@' :: u)
         | none => false)

/-! ### Concrete rows used by counterexamples and witnesses -/

/-- A row already labeled `high` at time 5. -/
def msgLabeledHigh : Msg :=
  { baseMsg with id := 1, timestamp := 0, priority_score := 3,
                 label := some .high, labeled_at := some 5 }

/-- An unlabeled, unclaimed row in the lookback window with score 2. -/
def msgA : Msg :=
  { baseMsg with id := 1, chat_id := 7, timestamp := 10, priority_score := 2 }

/-- A second unlabeled, unclaimed row, slightly older, with score 1. -/
def msgB : Msg :=
  { baseMsg with id := 2, chat_id := 8, timestamp := 9, priority_score := 1 }

/-- A row in the lookback window that is already labeled. -/
def msgC : Msg :=
  { baseMsg with id := 3, chat_id := 9, timestamp := 8,
                 label := some LabelValue.high, labeled_at := some 9 }

/-! ### Helper lemmas -/

/-- Closed form of the scorer on present text. -/
theorem score_closed_form_some (t : List Char) (m q h : Bool) :
    calculate_priority_score (some t) m q h =
      (if m then 3 else 0) + (if q then 2 else 0) +
        (if 100 < t.length then 1 else 0) + (if h then 2 else 0) := by
  cases m <;> cases q <;> cases h <;>
    by_cases hl : 100 < t.length <;>
      simp [calculate_priority_score, SCORE_MENTION, SCORE_QUESTION,
        SCORE_LONG_MESSAGE, SCORE_HIGH_PRIORITY_USER, MIN_LONG_MESSAGE_LENGTH, hl]

/-- Closed form of the scorer on absent text. -/
theorem score_closed_form_none (m q h : Bool) :
    calculate_priority_score none m q h =
      (if m then 3 else 0) + (if q then 2 else 0) + (if h then 2 else 0) := by
  cases m <;> cases q <;> cases h <;>
    simp [calculate_priority_score, SCORE_MENTION, SCORE_QUESTION,
      SCORE_LONG_MESSAGE, SCORE_HIGH_PRIORITY_USER, MIN_LONG_MESSAGE_LENGTH]

/-- The scorer never exceeds the sum of the four weights. -/
theorem score_le_8 (t : Option (List Char)) (m q h : Bool) :
    calculate_priority_score t m q h ≤ 8 := by
  rcases t with _ | t
  · rw [score_closed_form_none]; split_ifs <;> omega
  · rw [score_closed_form_some]; split_ifs <;> omega

/-! ### C4 : the scoring formula -/

/-- C4: for every combination of mention, question, text length and
high-priority inputs, `calculate_priority_score` equals
3·[mention] + 2·[question] + 1·[length > 100] + 2·[high-priority]; it is a
total Lean function (hence deterministic and side-effect free), and
all-false/short input yields exactly 0. -/
theorem C4_score_formula :
    (∀ (t : List Char) (m q h : Bool),
      calculate_priority_score (some t) m q h =
        (if m then 3 else 0) + (if q then 2 else 0) +
          (if 100 < t.length then 1 else 0) + (if h then 2 else 0)) ∧
    (∀ (m q h : Bool),
      calculate_priority_score none m q h =
        (if m then 3 else 0) + (if q then 2 else 0) + (if h then 2 else 0)) ∧
    (∀ (t : List Char), t.length ≤ 100 →
      calculate_priority_score (some t) false false false = 0) ∧
    calculate_priority_score none false false false = 0 := by
  refine ⟨score_closed_form_some, score_closed_form_none, ?_, by decide⟩
  intro t ht
  rw [score_closed_form_some]
  have : ¬ 100 < t.length := by omega
  simp [this]

/-- Witness for C4 at a concrete short text. -/
theorem C4_score_formula_witness :
    calculate_priority_score (some "ok".toList) false false false = 0 :=
  C4_score_formula.2.2.1 "ok".toList (by decide)

/-! ### C9 : monotonicity in each flag -/

/-- C9: for every text argument and every assignment of the other flags,
flipping any single contributing flag of `calculate_priority_score` from
false to true never decreases the score. -/
theorem C9_score_monotone :
    ∀ (t : Option (List Char)) (m q h : Bool),
      calculate_priority_score t false q h ≤ calculate_priority_score t true q h ∧
      calculate_priority_score t m false h ≤ calculate_priority_score t m true h ∧
      calculate_priority_score t m q false ≤ calculate_priority_score t m q true := by
  intro t m q h
  rcases t with _ | t
  · simp only [score_closed_form_none]
    refine ⟨?_, ?_, ?_⟩ <;> split_ifs <;> omega
  · simp only [score_closed_form_some]
    refine ⟨?_, ?_, ?_⟩ <;> split_ifs <;> omega

/-! ### C10 : the implicit score ceiling -/

/-- C10: the scorer returns at most 8 on every input, so with a warning
threshold above 8 the alert branch of `save_message` is unreachable: the
alert is never dispatched and the alert-sent flag never set. -/
theorem C10_score_ceiling :
    (∀ (t : Option (List Char)) (m q h : Bool),
      calculate_priority_score t m q h ≤ 8) ∧
    (∀ (db : List Msg) (tmid : Nat) (cid : Int) (ctitle : Option (List Char))
        (ctype : List Char) (uid : Nat) (uname mtext : Option (List Char))
        (ts : Int) (cuser : Option (List Char)) (hpu : List Nat) (w : Nat)
        (ba ok : Bool) (topic : Option (List Char)) (now : Int), 8 < w →
      (save_message db tmid cid ctitle ctype uid uname mtext ts cuser hpu w
          ba ok topic now).dispatched = false ∧
      (save_message db tmid cid ctitle ctype uid uname mtext ts cuser hpu w
          ba ok topic now).flagSet = false) := by
  refine ⟨score_le_8, ?_⟩
  intro db tmid cid ctitle ctype uid uname mtext ts cuser hpu w ba ok topic now hw
  have hsc := score_le_8 mtext (detect_mention mtext cuser) (detect_question mtext)
    (hpu.contains uid)
  constructor <;>
  · simp only [save_message]
    split
    · omega
    · rfl

/-- Witness for C10 with threshold 9. -/
theorem C10_score_ceiling_witness :
    (save_message [] 1 0 none "private".toList 0 none none 0 none [] 9
        true true none 0).dispatched = false :=
  (C10_score_ceiling.2 [] 1 0 none "private".toList 0 none none 0 none [] 9
    true true none 0 (by decide)).1

/-! ### C8 : mention detection -/

/-- C8 counterexample: with text `"@-b"` and username `"-B"` the spec's
fully case-insensitive reading demands a match (the lowercased text contains
the lowercased `@-B`), but `detect_mention` returns false: the source
lowercases the text only, and `"@-B"` does not occur in `"@-b"`, while the
regex token check finds no `@` followed by a word character. -/
theorem C8_mention_counterexample :
    detect_mention (some ['@', '-', 'b']) (some ['-', 'B']) = false ∧
    detect_mention_spec (some ['@', '-', 'b']) (some ['-', 'B']) = true := by
  decide

/-- C8 amended: `detect_mention` returns true exactly when the text contains
an `@`-word token, or — when a nonempty username is supplied — when the
lowercased text contains the literal `@username` with the username in its
original case; absent or empty text returns false.  (`detect_mention_amended`
states exactly this.) -/
theorem C8_mention_amended :
    ∀ (text username : Option (List Char)),
      detect_mention text username = detect_mention_amended text username := by
  intro text username
  rcases text with _ | t
  · rfl
  rcases username with _ | u
  · simp [detect_mention, detect_mention_amended]
  by_cases ht : t.isEmpty <;> by_cases hu : u.isEmpty <;>
    simp [detect_mention, detect_mention_amended, ht, hu, Bool.or_comm]

/-! ### C1 : label finality -/

/-- C1 counterexample: the row `msgLabeledHigh` is already labeled `high`
(at time 5); a later callback for id 1 with label `low` silently overwrites
both the label and the labeled-at timestamp and confirms the NEW label,
contradicting idempotence. -/
theorem C1_label_counterexample :
    msgLabeledHigh.label = some LabelValue.high ∧
    msgLabeledHigh.labeled_at = some 5 ∧
    (handle_label_callback [msgLabeledHigh] 1 LabelValue.low 10).1.map Msg.label
      = [some LabelValue.low] ∧
    (handle_label_callback [msgLabeledHigh] 1 LabelValue.low 10).1.map Msg.labeled_at
      = [some 10] ∧
    (handle_label_callback [msgLabeledHigh] 1 LabelValue.low 10).2
      = LabelReply.confirmed LabelValue.low := by
  decide

/-- C1 amended: a labeling request for an existing message id — whether or
not the message is already labeled — unconditionally overwrites the stored
label and labeled-at timestamp with the requested value and the current
time, and reports the requested (new) label. -/
theorem C1_label_amended (db : List Msg) (mid : Nat) (lab : LabelValue)
    (now : Int) (m : Msg) (hm : m ∈ db) (hid : m.id = mid) :
    (handle_label_callback db mid lab now).2 = .confirmed lab ∧
    (∃ m2 ∈ (handle_label_callback db mid lab now).1,
        m2.id = mid ∧ m2.label = some lab ∧ m2.labeled_at = some now) ∧
    ∀ m2 ∈ (handle_label_callback db mid lab now).1,
      m2.id = mid → m2.label = some lab ∧ m2.labeled_at = some now := by
  obtain ⟨y, hy⟩ : ∃ y, db.find? (fun x => decide (x.id = mid)) = some y := by
    have : (db.find? (fun x => decide (x.id = mid))).isSome := by
      rw [List.find?_isSome]
      exact ⟨m, hm, by simp [hid]⟩
    exact Option.isSome_iff_exists.mp this
  refine ⟨?_, ?_, ?_⟩
  · simp [handle_label_callback, hy]
  · refine ⟨{ m with label := some lab, labeled_at := some now }, ?_, by simp [hid]⟩
    simp only [handle_label_callback, hy]
    exact List.mem_map.mpr ⟨m, hm, by simp [hid]⟩
  · intro m2 hm2 hmid
    simp only [handle_label_callback, hy] at hm2
    obtain ⟨z, hz, hz2⟩ := List.mem_map.mp hm2
    by_cases hzid : z.id = mid
    · rw [if_pos hzid] at hz2
      subst hz2; simp
    · rw [if_neg hzid] at hz2
      subst hz2; exact absurd hmid hzid

/-- Witness for C1's amended theorem on the concrete one-row table. -/
theorem C1_label_amended_witness :
    (handle_label_callback [msgLabeledHigh] 1 LabelValue.low 10).2
      = LabelReply.confirmed LabelValue.low :=
  (C1_label_amended [msgLabeledHigh] 1 LabelValue.low 10 msgLabeledHigh
    (by decide) (by decide)).1

/-! ### C5 : the warning boundary -/

/-- The warning mark on a freshly appended row is present in the updated
table. -/
theorem markWarning_mem_append (db : List Msg) (r : Msg) (t : Int) :
    ∃ m2 ∈ markWarning (db ++ [r]) r.id t,
      m2.id = r.id ∧ m2.warning_sent = true := by
  refine ⟨{ r with warning_sent := true, warning_sent_at := some t }, ?_, by simp⟩
  unfold markWarning
  exact List.mem_map.mpr ⟨r, by simp, by simp⟩

/-- Same fact, phrased on a successful `send_warning_for_message` call. -/
theorem warn_mem_append (db : List Msg) (r : Msg) (t : Int) :
    ∃ m2 ∈ (send_warning_for_message (db ++ [r]) r.id true true t).db,
      m2.id = r.id ∧ m2.warning_sent = true := by
  show ∃ m2 ∈ markWarning (db ++ [r]) r.id t, m2.id = r.id ∧ m2.warning_sent = true
  exact markWarning_mem_append db r t

/-- C5: with the bot application available, `save_message` invokes the
alert-dispatch side effect exactly when the derived priority score reaches
the configured warning threshold (so a score equal to the threshold
triggers, one below does not); the alert-sent flag is written exactly when
the dispatch was invoked and succeeded, and a written flag means the new row
is marked `warning_sent` in the table. -/
theorem C5_warning_boundary (db : List Msg) (tmid : Nat) (cid : Int)
    (ctitle : Option (List Char)) (ctype : List Char) (uid : Nat)
    (uname mtext : Option (List Char)) (ts : Int) (cuser : Option (List Char))
    (hpu : List Nat) (w : Nat) (ok : Bool) (topic : Option (List Char))
    (now : Int) :
    ((save_message db tmid cid ctitle ctype uid uname mtext ts cuser hpu w
        true ok topic now).dispatched
      = decide (w ≤ calculate_priority_score mtext (detect_mention mtext cuser)
          (detect_question mtext) (hpu.contains uid))) ∧
    (∀ ba : Bool,
      (save_message db tmid cid ctitle ctype uid uname mtext ts cuser hpu w
          ba ok topic now).flagSet
        = ((save_message db tmid cid ctitle ctype uid uname mtext ts cuser hpu w
            ba ok topic now).dispatched && ok)) ∧
    (∀ ba : Bool,
      (save_message db tmid cid ctitle ctype uid uname mtext ts cuser hpu w
          ba ok topic now).flagSet = true →
        ∃ m2 ∈ (save_message db tmid cid ctitle ctype uid uname mtext ts cuser
            hpu w ba ok topic now).db,
          m2.id = nextId db ∧ m2.warning_sent = true) := by
  refine ⟨?_, ?_, ?_⟩
  · simp only [save_message]
    split
    · next h =>
      rw [decide_eq_true h]
      cases ok <;> rfl
    · next h =>
      rw [decide_eq_false h]
  · intro ba
    simp only [save_message]
    split
    · cases ba <;> cases ok <;> rfl
    · cases ok <;> rfl
  · intro ba
    simp only [save_message]
    split
    · intro hflag
      cases ba
      · simp [send_warning_for_message] at hflag
      · cases ok
        · simp [send_warning_for_message] at hflag
        · exact warn_mem_append db _ now
    · intro hflag
      simp at hflag

/-- Witness for C5: text `"@bob ok?"` scores 5 (mention +3, question +2);
with threshold 5 the alert is dispatched, with threshold 6 it is not. -/
theorem C5_warning_boundary_witness :
    (save_message [] 1 0 none "private".toList 0 none (some "@bob ok?".toList)
        0 none [] 5 true true none 0).dispatched = true ∧
    (save_message [] 1 0 none "private".toList 0 none (some "@bob ok?".toList)
        0 none [] 6 true true none 0).dispatched = false := by
  constructor
  · rw [(C5_warning_boundary [] 1 0 none "private".toList 0 none
      (some "@bob ok?".toList) 0 none [] 5 true none 0).1]
    decide
  · rw [(C5_warning_boundary [] 1 0 none "private".toList 0 none
      (some "@bob ok?".toList) 0 none [] 6 true none 0).1]
    decide

/-! ### C2 : the batch selection query -/

/-- The selected list is the capped, sorted, filtered table. -/
theorem get_unlabeled_fst (db : List Msg) (now : Int)
    (hours limitN minScore : Nat) (claimTime : Int) :
    (get_unlabeled_messages db now hours limitN minScore claimTime).1 =
      (List.insertionSort selRel
        (db.filter (selectPred minScore (now - hours)))).take limitN := by
  simp only [get_unlabeled_messages]
  split <;> rfl

/-- The updated table marks exactly the rows whose id occurs among the
selected ids. -/
theorem get_unlabeled_snd (db : List Msg) (now : Int)
    (hours limitN minScore : Nat) (claimTime : Int) :
    (get_unlabeled_messages db now hours limitN minScore claimTime).2 =
      db.map (fun m =>
        if ((get_unlabeled_messages db now hours limitN minScore claimTime).1.map
            (fun s => s.id)).contains m.id
        then { m with included_in_summary := true, summary_sent_at := some claimTime }
        else m) := by
  rw [get_unlabeled_fst]
  simp only [get_unlabeled_messages]
  split
  · next hempty =>
    rw [List.isEmpty_iff.mp hempty]
    simp
  · rfl

/-- Unfolding of the selection predicate. -/
theorem selectPred_iff {minScore : Nat} {cutoff : Int} {m : Msg} :
    selectPred minScore cutoff m = true ↔
      cutoff ≤ m.timestamp ∧ m.label = none ∧ m.included_in_summary = false ∧
        minScore ≤ m.priority_score := by
  simp [selectPred, Bool.not_eq_true', and_assoc]

/-- Selected rows come from the table and satisfy the selection predicate. -/
theorem mem_selected {db : List Msg} {now : Int} {hours limitN minScore : Nat}
    {claimTime : Int} {m : Msg}
    (hm : m ∈ (get_unlabeled_messages db now hours limitN minScore claimTime).1) :
    m ∈ db ∧ selectPred minScore (now - hours) m = true := by
  rw [get_unlabeled_fst] at hm
  have hmS := List.mem_of_mem_take hm
  have hperm := List.perm_insertionSort selRel
    (db.filter (selectPred minScore (now - hours)))
  exact List.mem_filter.mp (hperm.mem_iff.mp hmS)

/-- C2: the batch selector returns exactly the rows of the table with
capture timestamp at or after `now − H`, null label, digest-claimed false
and score at least the configured minimum — ordered by score descending
with ties broken by timestamp descending, truncated to the first `N` (when
more qualify, everything returned dominates everything left out in that
order) — and the updated table marks exactly the rows carrying a returned
id as digest-claimed with the claim timestamp. -/
theorem C2_batch_selection (db : List Msg) (now : Int)
    (hours limitN minScore : Nat) (claimTime : Int) :
    (∀ m ∈ (get_unlabeled_messages db now hours limitN minScore claimTime).1,
      m ∈ db ∧ now - hours ≤ m.timestamp ∧ m.label = none ∧
        m.included_in_summary = false ∧ minScore ≤ m.priority_score) ∧
    (get_unlabeled_messages db now hours limitN minScore claimTime).1.Pairwise selRel ∧
    (get_unlabeled_messages db now hours limitN minScore claimTime).1.length ≤ limitN ∧
    ((db.filter (selectPred minScore (now - hours))).length ≤ limitN →
      (get_unlabeled_messages db now hours limitN minScore claimTime).1.Perm
        (db.filter (selectPred minScore (now - hours)))) ∧
    (∀ m ∈ db, selectPred minScore (now - hours) m = true →
      m ∉ (get_unlabeled_messages db now hours limitN minScore claimTime).1 →
      (get_unlabeled_messages db now hours limitN minScore claimTime).1.length = limitN ∧
        ∀ s ∈ (get_unlabeled_messages db now hours limitN minScore claimTime).1,
          selRel s m) ∧
    (get_unlabeled_messages db now hours limitN minScore claimTime).2 =
      db.map (fun m =>
        if ((get_unlabeled_messages db now hours limitN minScore claimTime).1.map
            (fun s => s.id)).contains m.id
        then { m with included_in_summary := true, summary_sent_at := some claimTime }
        else m) := by
  have hperm := List.perm_insertionSort selRel
    (db.filter (selectPred minScore (now - hours)))
  have hS : List.Pairwise selRel
      (List.insertionSort selRel (db.filter (selectPred minScore (now - hours)))) :=
    List.sorted_insertionSort selRel (db.filter (selectPred minScore (now - hours)))
  refine ⟨?_, ?_, ?_, ?_, ?_, get_unlabeled_snd db now hours limitN minScore claimTime⟩
  · intro m hm
    obtain ⟨hmdb, hpred⟩ := mem_selected hm
    obtain ⟨h1, h2, h3, h4⟩ := selectPred_iff.mp hpred
    exact ⟨hmdb, h1, h2, h3, h4⟩
  · rw [get_unlabeled_fst]
    exact List.Pairwise.sublist (List.take_sublist _ _) hS
  · rw [get_unlabeled_fst, List.length_take]
    omega
  · intro hlen
    rw [get_unlabeled_fst, List.take_of_length_le (by rw [hperm.length_eq]; omega)]
    exact hperm
  · intro m hmdb hpred hnot
    rw [get_unlabeled_fst] at hnot ⊢
    have hmS : m ∈ List.insertionSort selRel
        (db.filter (selectPred minScore (now - hours))) :=
      hperm.mem_iff.mpr (List.mem_filter.mpr ⟨hmdb, hpred⟩)
    set S := List.insertionSort selRel
      (db.filter (selectPred minScore (now - hours))) with hSdef
    have hmdrop : m ∈ S.drop limitN := by
      rcases List.mem_append.mp ((List.take_append_drop limitN S).symm ▸ hmS) with h | h
      · exact absurd h hnot
      · exact h
    have hlenS : limitN < S.length := by
      by_contra hcon
      rw [List.drop_eq_nil_of_le (by omega)] at hmdrop
      cases hmdrop
    have hp : List.Pairwise selRel (S.take limitN ++ S.drop limitN) := by
      rw [List.take_append_drop]
      exact hS
    refine ⟨by rw [List.length_take]; omega, ?_⟩
    intro s hs
    exact (List.pairwise_append.mp hp).2.2 s hs m hmdrop

/-- Witness for C2 on a one-row table: with the cap not binding, the
selection is a permutation of the filtered table. -/
theorem C2_batch_selection_witness :
    (get_unlabeled_messages [msgA] 10 4 5 1 10).1.Perm
      ([msgA].filter (selectPred 1 ((10 : Int) - ((4 : Nat) : Int)))) :=
  (C2_batch_selection [msgA] 10 4 5 1 10).2.2.2.1 (by decide)

/-! ### C3 : claim permanence -/

/-- Every element of a list of naturals is bounded by its folded maximum. -/
theorem le_foldr_max (l : List Nat) : ∀ x ∈ l, x ≤ l.foldr max 0 := by
  induction l with
  | nil => intro x hx; cases hx
  | cons a t ih =>
    intro x hx
    rcases List.mem_cons.mp hx with h | h
    · subst h
      exact le_max_left _ _
    · exact le_trans (ih x h) (le_max_right _ _)

/-- Existing row ids are strictly below the next fresh id. -/
theorem id_lt_nextId {db : List Msg} {m : Msg} (hm : m ∈ db) : m.id < nextId db := by
  have := le_foldr_max (db.map (fun x => x.id)) m.id (List.mem_map_of_mem _ hm)
  unfold nextId
  omega

/-- A map that preserves ids and never clears the digest-claimed flag
preserves the claim invariant. -/
theorem claimedInv_map (db : List Msg) (mid : Nat) (f : Msg → Msg)
    (hid : ∀ m, (f m).id = m.id)
    (hinc : ∀ m, m.included_in_summary = true → (f m).included_in_summary = true)
    (h : claimedInv db mid) : claimedInv (db.map f) mid := by
  obtain ⟨⟨m, hm, hmid, hminc⟩, hall⟩ := h
  constructor
  · exact ⟨f m, List.mem_map_of_mem f hm, by rw [hid]; exact hmid, hinc m hminc⟩
  · intro m2 hm2 hm2id
    obtain ⟨z, hz, hz2⟩ := List.mem_map.mp hm2
    subst hz2
    exact hinc z (hall z hz (by rw [hid] at hm2id; exact hm2id))

/-- Appending a row with a different id preserves the claim invariant. -/
theorem claimedInv_append (db : List Msg) (mid : Nat) (r : Msg)
    (hr : r.id ≠ mid) (h : claimedInv db mid) : claimedInv (db ++ [r]) mid := by
  obtain ⟨⟨m, hm, hmid, hminc⟩, hall⟩ := h
  constructor
  · exact ⟨m, List.mem_append_left _ hm, hmid, hminc⟩
  · intro m2 hm2 hm2id
    rcases List.mem_append.mp hm2 with h2 | h2
    · exact hall m2 h2 hm2id
    · rw [List.mem_singleton.mp h2] at hm2id
      exact absurd hm2id hr

/-- The warning update preserves the claim invariant. -/
theorem claimedInv_markWarning (db : List Msg) (mid k : Nat) (t : Int)
    (h : claimedInv db mid) : claimedInv (markWarning db k t) mid := by
  unfold markWarning
  refine claimedInv_map db mid _ ?_ ?_ h
  · intro m; by_cases hm : m.id = k <;> simp [hm]
  · intro m hm; by_cases hk : m.id = k <;> simp [hk, hm]

/-- The warning dispatch preserves the claim invariant. -/
theorem claimedInv_warn (db : List Msg) (mid k : Nat) (ba ok : Bool) (t : Int)
    (h : claimedInv db mid) :
    claimedInv ((send_warning_for_message db k ba ok t).db) mid := by
  unfold send_warning_for_message
  split
  · exact h
  · split
    · exact claimedInv_markWarning db mid k t h
    · exact h

/-- The label callback preserves the claim invariant. -/
theorem claimedInv_label (db : List Msg) (mid k : Nat) (lab : LabelValue) (t : Int)
    (h : claimedInv db mid) :
    claimedInv ((handle_label_callback db k lab t).1) mid := by
  unfold handle_label_callback
  split
  · exact h
  · refine claimedInv_map db mid _ ?_ ?_ h
    · intro m; by_cases hm : m.id = k <;> simp [hm]
    · intro m hm; by_cases hk : m.id = k <;> simp [hk, hm]

/-- Message intake preserves the claim invariant: the inserted row gets a
fresh id, and the optional warning update touches no claim flag. -/
theorem claimedInv_save (db : List Msg) (mid : Nat) (a : Nat) (b : Int)
    (c : Option (List Char)) (d : List Char) (e : Nat)
    (f g : Option (List Char)) (ts : Int) (i : Option (List Char))
    (j : List Nat) (w : Nat) (ba ok : Bool) (topic : Option (List Char))
    (t : Int) (h : claimedInv db mid) :
    claimedInv ((save_message db a b c d e f g ts i j w ba ok topic t).db) mid := by
  have hlt : mid < nextId db := by
    obtain ⟨⟨m, hm, hmid, hinc⟩, hall⟩ := h
    rw [← hmid]
    exact id_lt_nextId hm
  simp only [save_message]
  split
  · exact claimedInv_warn _ mid (nextId db) ba ok t
      (claimedInv_append db mid _ (by show nextId db ≠ mid; omega) h)
  · exact claimedInv_append db mid _ (by show nextId db ≠ mid; omega) h

/-- A selector run preserves the claim invariant (it only ever sets the
flag, never clears it). -/
theorem claimedInv_select (db : List Msg) (mid : Nat) (now : Int)
    (hours limitN minScore : Nat) (ct : Int) (h : claimedInv db mid) :
    claimedInv ((get_unlabeled_messages db now hours limitN minScore ct).2) mid := by
  rw [get_unlabeled_snd]
  refine claimedInv_map db mid _ ?_ ?_ h
  · intro m
    by_cases hm : ((get_unlabeled_messages db now hours limitN minScore ct).1.map
        (fun s => s.id)).contains m.id = true
    · rw [if_pos hm]
    · rw [if_neg hm]
  · intro m hm
    by_cases hk : ((get_unlabeled_messages db now hours limitN minScore ct).1.map
        (fun s => s.id)).contains m.id = true
    · rw [if_pos hk]
    · rw [if_neg hk]
      exact hm

/-- A full summary cycle preserves the claim invariant. -/
theorem claimedInv_summary (db : List Msg) (mid : Nat) (now : Int)
    (hours limitN minScore : Nat) (ok : Bool) (h : claimedInv db mid) :
    claimedInv ((generate_and_send_summary db now hours limitN minScore ok).2) mid := by
  simp only [generate_and_send_summary]
  split
  · exact h
  · split
    · exact claimedInv_select db mid now hours limitN minScore now h
    · split
      · exact claimedInv_select db mid now hours limitN minScore now h
      · exact claimedInv_select db mid now hours limitN minScore now h

/-- Every single ledger operation preserves the claim invariant. -/
theorem claimedInv_applyOp (db : List Msg) (mid : Nat) (op : Op)
    (h : claimedInv db mid) : claimedInv (applyOp db op) mid := by
  cases op with
  | intake a b c d e f g ts i j w ba ok topic t =>
    exact claimedInv_save db mid a b c d e f g ts i j w ba ok topic t h
  | labelCallback k lab t => exact claimedInv_label db mid k lab t h
  | warn k ba ok t => exact claimedInv_warn db mid k ba ok t h
  | summary now hours limitN minScore ok =>
    exact claimedInv_summary db mid now hours limitN minScore ok h

/-- Every sequence of ledger operations preserves the claim invariant. -/
theorem claimedInv_applyOps (db : List Msg) (mid : Nat) (ops : List Op)
    (h : claimedInv db mid) : claimedInv (applyOps db ops) mid := by
  induction ops generalizing db with
  | nil => exact h
  | cons op rest ih => exact ih (applyOp db op) (claimedInv_applyOp db mid op h)

/-- After a selector run, the claim invariant holds for the id of every
returned row. -/
theorem claimedInv_of_selected {db : List Msg} {now : Int}
    {hours limitN minScore : Nat} {ct : Int} {x : Msg}
    (hx : x ∈ (get_unlabeled_messages db now hours limitN minScore ct).1) :
    claimedInv ((get_unlabeled_messages db now hours limitN minScore ct).2) x.id := by
  obtain ⟨hxdb, hxpred⟩ := mem_selected hx
  have hxid : ((get_unlabeled_messages db now hours limitN minScore ct).1.map
      (fun s => s.id)).contains x.id = true :=
    List.elem_iff.mpr (List.mem_map.mpr ⟨x, hx, rfl⟩)
  rw [get_unlabeled_snd]
  constructor
  · refine ⟨{ x with included_in_summary := true, summary_sent_at := some ct },
      List.mem_map.mpr ⟨x, hxdb, by rw [if_pos hxid]⟩, by simp, by simp⟩
  · intro m2 hm2 hm2id
    obtain ⟨z, hz, hz2⟩ := List.mem_map.mp hm2
    by_cases hzc : ((get_unlabeled_messages db now hours limitN minScore ct).1.map
        (fun s => s.id)).contains z.id = true
    · rw [← hz2, if_pos hzc]
    · rw [← hz2, if_neg hzc] at hm2id
      rw [hm2id] at hzc
      exact absurd hxid hzc

/-- A selector run never returns a row whose id satisfies the claim
invariant. -/
theorem selector_excludes {db : List Msg} {mid : Nat} (h : claimedInv db mid)
    (now : Int) (hours limitN minScore : Nat) (ct : Int) :
    ∀ y ∈ (get_unlabeled_messages db now hours limitN minScore ct).1, y.id ≠ mid := by
  intro y hy hyid
  obtain ⟨hydb, hypred⟩ := mem_selected hy
  have hinc : y.included_in_summary = false := (selectPred_iff.mp hypred).2.2.1
  have h1 : y.included_in_summary = true := h.2 y hydb hyid
  rw [h1] at hinc
  exact Bool.noConfusion hinc

/-- C3: a message returned (and claimed) by one batch-selector run stays
digest-claimed across any sequence of subsequent ledger operations — no
operation of the repository clears the flag — and no later selector run,
whatever its window, cap, or minimum, ever returns a row with its id. -/
theorem C3_claim_permanence (db : List Msg) (now : Int)
    (hours limitN minScore : Nat) (claimTime : Int) (x : Msg)
    (hx : x ∈ (get_unlabeled_messages db now hours limitN minScore claimTime).1)
    (ops : List Op) :
    (∀ m ∈ applyOps (get_unlabeled_messages db now hours limitN minScore claimTime).2 ops,
        m.id = x.id → m.included_in_summary = true) ∧
    ∀ (now2 : Int) (hours2 limitN2 minScore2 : Nat) (claimTime2 : Int) (y : Msg),
      y ∈ (get_unlabeled_messages
          (applyOps (get_unlabeled_messages db now hours limitN minScore claimTime).2 ops)
          now2 hours2 limitN2 minScore2 claimTime2).1 →
        y.id ≠ x.id := by
  have h2 := claimedInv_applyOps _ x.id ops (claimedInv_of_selected hx)
  exact ⟨h2.2, fun now2 hours2 limitN2 minScore2 claimTime2 y hy =>
    selector_excludes h2 now2 hours2 limitN2 minScore2 claimTime2 y hy⟩

/-- Witness for C3: `msgA` is claimed by a run with cap 1; after a label
callback, an overlapping second run returns only `msgB`, whose id differs
from `msgA`'s. -/
theorem C3_claim_permanence_witness : msgB.id ≠ msgA.id :=
  (C3_claim_permanence [msgA, msgB] 10 4 1 1 10 msgA (by decide)
    [Op.labelCallback 1 LabelValue.high 20]).2 12 4 5 1 12 msgB (by decide)

/-! ### C6 : the quiet and all-clear signals -/

/-- When nothing is selected, the table is left untouched. -/
theorem get_unlabeled_snd_of_nil {db : List Msg} {now : Int}
    {hours limitN minScore : Nat} {ct : Int}
    (h : (get_unlabeled_messages db now hours limitN minScore ct).1 = []) :
    (get_unlabeled_messages db now hours limitN minScore ct).2 = db := by
  rw [get_unlabeled_snd, h]
  simp

/-- C6: when the raw total count in the lookback window is zero, the
summary cycle emits the explicit quiet signal and leaves the table
untouched; when the total is nonzero but nothing is selected, it emits the
explicit all-clear signal carrying that total — again without touching the
table. -/
theorem C6_signal_variants (db : List Msg) (now : Int)
    (hours limitN minScore : Nat) (deliveryOk : Bool) :
    ((get_message_stats db now hours).1 = 0 →
      (generate_and_send_summary db now hours limitN minScore deliveryOk).1 =
        SummaryOutcome.quiet hours ∧
      (generate_and_send_summary db now hours limitN minScore deliveryOk).2 = db) ∧
    ((get_message_stats db now hours).1 ≠ 0 →
      (get_unlabeled_messages db now hours limitN minScore now).1 = [] →
      (generate_and_send_summary db now hours limitN minScore deliveryOk).1 =
        SummaryOutcome.allClear (get_message_stats db now hours).1 hours ∧
      (generate_and_send_summary db now hours limitN minScore deliveryOk).2 = db) := by
  constructor
  · intro h0
    simp only [generate_and_send_summary]
    rw [if_pos h0]
    exact ⟨rfl, rfl⟩
  · intro h0 hsel
    have hempty : (get_unlabeled_messages db now hours limitN minScore now).1.isEmpty
        = true := by
      rw [hsel]
      rfl
    simp only [generate_and_send_summary]
    rw [if_neg h0, if_pos hempty]
    exact ⟨rfl, get_unlabeled_snd_of_nil hsel⟩

/-- Witness for C6: an empty table yields the quiet signal; a table holding
one already-labeled in-window row yields the all-clear signal with total
1. -/
theorem C6_signal_variants_witness :
    (generate_and_send_summary [] 10 4 5 1 true).1 = SummaryOutcome.quiet 4 ∧
    (generate_and_send_summary [msgC] 10 4 5 1 true).1 = SummaryOutcome.allClear 1 4 :=
  ⟨((C6_signal_variants [] 10 4 5 1 true).1 (by decide)).1,
   ((C6_signal_variants [msgC] 10 4 5 1 true).2 (by decide) (by decide)).1⟩

/-! ### C7 : at-most-once delivery -/

/-- A nonempty selection forces a nonzero raw total in the same window. -/
theorem stats_fst_pos {db : List Msg} {now : Int} {hours limitN minScore : Nat}
    {ct : Int} {x : Msg}
    (hx : x ∈ (get_unlabeled_messages db now hours limitN minScore ct).1) :
    (get_message_stats db now hours).1 ≠ 0 := by
  obtain ⟨hxdb, hxpred⟩ := mem_selected hx
  have hts : now - hours ≤ x.timestamp := (selectPred_iff.mp hxpred).1
  have hmem : x ∈ db.filter (fun m => decide (now - hours ≤ m.timestamp)) :=
    List.mem_filter.mpr ⟨hxdb, by simpa using hts⟩
  simp only [get_message_stats]
  intro hlen
  rw [List.length_eq_zero] at hlen
  rw [hlen] at hmem
  cases hmem

/-- C7: when digest delivery fails after the claim step, the cycle reports
the failure as an outcome value (the source catches the exception; nothing
fatal propagates), the claimed rows keep their digest-claimed flag — the
failed cycle performs no retroactive unclaiming — and no later selector
run, after any sequence of further ledger operations, ever returns a row
with the id of a message of the failed digest. -/
theorem C7_at_most_once (db : List Msg) (now : Int) (hours limitN minScore : Nat)
    (hsel : (get_unlabeled_messages db now hours limitN minScore now).1 ≠ []) :
    (generate_and_send_summary db now hours limitN minScore false).1 =
      SummaryOutcome.deliveryError
        (get_unlabeled_messages db now hours limitN minScore now).1 ∧
    (generate_and_send_summary db now hours limitN minScore false).2 =
      (get_unlabeled_messages db now hours limitN minScore now).2 ∧
    (∀ x ∈ (get_unlabeled_messages db now hours limitN minScore now).1,
      ∀ m ∈ (generate_and_send_summary db now hours limitN minScore false).2,
        m.id = x.id → m.included_in_summary = true) ∧
    ∀ (ops : List Op) (now2 : Int) (hours2 limitN2 minScore2 : Nat)
      (claimTime2 : Int) (x y : Msg),
      x ∈ (get_unlabeled_messages db now hours limitN minScore now).1 →
      y ∈ (get_unlabeled_messages
          (applyOps (generate_and_send_summary db now hours limitN minScore false).2 ops)
          now2 hours2 limitN2 minScore2 claimTime2).1 →
        y.id ≠ x.id := by
  obtain ⟨x0, hx0⟩ := List.exists_mem_of_ne_nil _ hsel
  have h0 := stats_fst_pos hx0
  have hne : ¬ (get_unlabeled_messages db now hours limitN minScore now).1.isEmpty
      = true := by
    rw [List.isEmpty_iff]
    exact hsel
  have hg : generate_and_send_summary db now hours limitN minScore false =
      (SummaryOutcome.deliveryError
          (get_unlabeled_messages db now hours limitN minScore now).1,
       (get_unlabeled_messages db now hours limitN minScore now).2) := by
    simp only [generate_and_send_summary]
    rw [if_neg h0, if_neg hne]
    rfl
  refine ⟨by rw [hg], by rw [hg], ?_, ?_⟩
  · intro x hx m hm hmid
    simp only [hg] at hm
    exact (claimedInv_of_selected hx).2 m hm hmid
  · intro ops now2 hours2 limitN2 minScore2 claimTime2 x y hx hy
    simp only [hg] at hy
    exact selector_excludes
      (claimedInv_applyOps _ x.id ops (claimedInv_of_selected hx))
      now2 hours2 limitN2 minScore2 claimTime2 y hy

/-- Witness for C7: a failed delivery of the one-row digest is reported as
the delivery-error outcome carrying the claimed list. -/
theorem C7_at_most_once_witness :
    (generate_and_send_summary [msgA] 10 4 5 1 false).1 =
      SummaryOutcome.deliveryError
        (get_unlabeled_messages [msgA] 10 4 5 1 10).1 :=
  (C7_at_most_once [msgA] 10 4 5 1 (by decide)).1

end TgSecretary
